import Mathlib

/-!
Verification development for the file-cleaner utility (src/Cleaner.py).

Shallow embedding conventions:
* Python strings are modelled as lists of characters (abbrev Chars).
* The filesystem seen by one scan is static and modelled by
  - the output of os.walk as a list of (directory, file names) entries, and
  - a size oracle of type Chars -> Option Nat; none models a path for which
    os.path.exists is false / os.path.getsize raises.
* Python str.lower / str.strip are modelled for ASCII data (pyLower, pyStrip).
* Machine integers do not occur: Python ints are unbounded, so Nat / Int are exact.
-/

namespace Cleaner

abbrev Chars := List Char

/-- Model of Python str.lower for ASCII characters (the code only compares
ASCII keywords and extensions): map the basic latin capitals to lower case. -/
def charLower (c : Char) : Char := c.toLower

def pyLower (l : Chars) : Chars := l.map charLower

def isSpaceChar (c : Char) : Bool := c == ' ' || c == '\t' || c == '\n' || c == '\r'

/-- Model of Python str.strip (remove leading and trailing whitespace). -/
def pyStrip (l : Chars) : Chars :=
  ((l.dropWhile isSpaceChar).reverse.dropWhile isSpaceChar).reverse

/-- Model of Python str.split on the two-character delimiter ", "
(used by input_file_format, Cleaner.py line 794). -/
def splitCommaSpace : Chars → Chars → List Chars
  | ',' :: ' ' :: rest, cur => cur.reverse :: splitCommaSpace rest []
  | c :: rest, cur => splitCommaSpace rest (c :: cur)
  | [], cur => [cur.reverse]

/-- The file_formats value flowing out of input_file_format: either the string
"all" or a tuple of extension strings. -/
inductive Formats where
  | all : Formats
  | exts : List Chars → Formats
deriving DecidableEq

/-- input_file_format (Cleaner.py lines 781-807): the raw extension line is
lowercased and stripped; if it is not "all" it is split on ", ".  The act
argument is the answer of get_valid_choice, i.e. one of "1" / "2"; "2" turns
inversion on.  (The interactive re-prompt loops are modelled by quantifying
over the finally accepted inputs.) -/
def input_file_format (raw : Chars) (act : Chars) : Formats × Bool :=
  let form := pyStrip (pyLower raw)
  if form = ['a', 'l', 'l'] then (Formats.all, false)
  else (Formats.exts (splitCommaSpace form []), act = ['2'])

/-- Character class of the regex "\.([^./\\]{1,10})$" in get_file_by_format
(Cleaner.py line 811). -/
def extOk (c : Char) : Bool := c != '.' && c != '/' && c != '\\'

/-- Result of re.search of the pattern "\.([^./\\]{1,10})$" on a path: the
match, if any, captures the characters after the last dot, provided there are
between 1 and 10 of them and none is a dot or a path separator.  (Python's $
can additionally match before a trailing newline; file names with a trailing
newline are outside this model.) -/
def extractExtension (file : Chars) : Option Chars :=
  if file.contains '.' then
    let ext := (file.reverse.takeWhile (fun c => c != '.')).reverse
    if 1 ≤ ext.length && ext.length ≤ 10 && ext.all extOk then some ext else none
  else none

/-- get_file_by_format (Cleaner.py lines 809-825).  Note the order of tests in
the source: when no valid extension is found the function returns False before
the inversion flag is ever consulted. -/
def get_file_by_format (file : Chars) (file_formats : Formats) (inversion : Bool) : Bool :=
  match file_formats with
  | .exts fmts =>
    match extractExtension file with
    | some extension =>
      let boolean := fmts.contains extension
      if inversion then !boolean else boolean
    | none => false
  | .all => true

/-- The size test "not filter_by_size or filter_by_size[0] <= file_size <=
filter_by_size[1]" shared by get_all_files_windows (line 865) and
get_information_about_files (line 886).  A validated filter_by_size is either
False (none) or a two-element range. -/
def sizeOk (filter_by_size : Option (Nat × Nat)) (file_size : Nat) : Bool :=
  match filter_by_size with
  | none => true
  | some fbs => fbs.1 ≤ file_size && file_size ≤ fbs.2

/-- os.path.join in the generic case: directory, separator, file name. -/
def joinPath (s : Char) (root f : Chars) : Chars := root ++ s :: f

/-- full_file_path.split(s)[-1]: the characters after the last separator. -/
def lastSegment (s : Char) (p : Chars) : Chars :=
  (p.reverse.takeWhile (fun c => c != s)).reverse

/-- Accumulator (total_size, files_and_size, list_of_full_file_paths) of the
scanning loops. -/
abbrev Acc := Nat × List (Chars × Nat) × List Chars

/-- Body of the per-file loop shared verbatim by get_all_files_windows
(lines 858-868) and get_information_about_files (lines 879-889): check the
format, re-confirm existence, read the size, apply the size filter, and
accumulate. -/
def fileStep (file_formats : Formats) (inversion : Bool)
    (filter_by_size : Option (Nat × Nat)) (s : Char) (fs : Chars → Option Nat)
    (root : Chars) (acc : Acc) (f : Chars) : Acc :=
  let full := joinPath s root f
  if get_file_by_format full file_formats inversion then
    match fs full with
    | some file_size =>
      if sizeOk filter_by_size file_size then
        (acc.1 + file_size, acc.2.1 ++ [(lastSegment s full, file_size)], acc.2.2 ++ [full])
      else acc
    | none => acc
  else acc

/-- get_information_about_files (Cleaner.py lines 872-891): one worker folds
the shared per-file body over every (directory, files) pair of its task list. -/
def get_information_about_files (file_formats : Formats) (inversion : Bool)
    (filter_by_size : Option (Nat × Nat)) (s : Char) (fs : Chars → Option Nat)
    (directories_and_files : List (Chars × List Chars)) : Acc :=
  directories_and_files.foldl
    (fun acc unit => unit.2.foldl (fileStep file_formats inversion filter_by_size s fs unit.1) acc)
    (0, [], [])

/-- get_all_files_windows (Cleaner.py lines 852-870): the sequential fallback
scanner; the same walk-filter-confirm loop run over the whole walk in one
execution context. -/
def get_all_files_windows (walk : List (Chars × List Chars)) (file_formats : Formats)
    (inversion : Bool) (filter_by_size : Option (Nat × Nat)) (s : Char)
    (fs : Chars → Option Nat) : Acc :=
  walk.foldl
    (fun acc unit => unit.2.foldl (fileStep file_formats inversion filter_by_size s fs unit.1) acc)
    (0, [], [])

/-- tasks[task_number].append((root, files)) on the bucket list. -/
def appendAt (tasks : List (List α)) (i : Nat) (x : α) : List (List α) :=
  tasks.set i (tasks.getD i [] ++ [x])

/-- The partitioning loop of get_all_files (Cleaner.py lines 829-838): a single
counter assigns each walk entry to bucket counter % num_cores. -/
def partitionWalk (num_cores : Nat) (walk : List α) : List (List α) :=
  (walk.foldl (fun acc entry => (appendAt acc.1 (acc.2 % num_cores) entry, acc.2 + 1))
    (List.replicate num_cores [], 0)).1

/-- get_all_files (Cleaner.py lines 827-850): the parallel scanner.  The walk
is partitioned round-robin, each task list is handed to
get_information_about_files (one process each), and executor.map returns the
partial results in task order, which are then merged. -/
def get_all_files (num_cores : Nat) (walk : List (Chars × List Chars))
    (file_formats : Formats) (inversion : Bool) (filter_by_size : Option (Nat × Nat))
    (s : Char) (fs : Chars → Option Nat) : Acc :=
  (partitionWalk num_cores walk).foldl
    (fun acc task =>
      let r := get_information_about_files file_formats inversion filter_by_size s fs task
      (acc.1 + r.1, acc.2.1 ++ r.2.1, acc.2.2 ++ r.2.2))
    (0, [], [])

/-- The (directory, file) pairs of a walk, in walk order. -/
def walkPairs (walk : List (Chars × List Chars)) : List (Chars × Chars) :=
  (walk.map (fun unit => unit.2.map (fun f => (unit.1, f)))).flatten

/-! ## Executor: deleting_files_and_directories (Cleaner.py lines 1040-1071) -/

/-- Filesystem state seen by the delete pass.  files and dirs are the present
paths; fileLocked / dirLocked model paths on which os.remove / os.rmdir raises
a permission-style error. -/
structure DelFS where
  files : List Chars
  dirs : List Chars
  fileLocked : Chars → Bool
  dirLocked : Chars → Bool

/-- os.remove: succeeds (second component false) iff the file is present and
not locked; on FileNotFoundError / PermissionError the state is unchanged and
the exception flag is returned. -/
def os_remove (fs : DelFS) (f : Chars) : DelFS × Bool :=
  if fs.files.contains f then
    if fs.fileLocked f then (fs, true)
    else ({ fs with files := fs.files.filter (fun p => p != f) }, false)
  else (fs, true)

/-- Body of the per-file delete loop (lines 1044-1057): attempt the removal;
an exception flips the success flag and records the failure (the printed
message); the loop then continues with the next file. -/
def delStep (acc : DelFS × Bool × List Chars) (file : Chars) : DelFS × Bool × List Chars :=
  let r := os_remove acc.1 file
  if r.2 then (r.1, false, acc.2.2 ++ [file]) else (r.1, acc.2.1, acc.2.2)

/-- The per-file delete loop (lines 1044-1057): every file is attempted. -/
def deleting_files_loop (fs : DelFS) (list_of_files : List Chars) :
    DelFS × Bool × List Chars :=
  list_of_files.foldl delStep (fs, true, [])

/-- Is p strictly inside directory d (d, then a separator, then more)? -/
def underDir (s : Char) (d p : Chars) : Bool := (d ++ [s]).isPrefixOf p

/-- A directory has entries if some present file or some other present
directory lies strictly under it (os.rmdir refuses to remove it then). -/
def dirHasEntries (s : Char) (fs : DelFS) (d : Chars) : Bool :=
  fs.files.any (fun p => underDir s d p) || fs.dirs.any (fun p => p != d && underDir s d p)

/-- os.rmdir wrapped in try/except OSError: pass (lines 1063-1066): the
directory disappears only when it exists, is empty and is not locked; every
failure is swallowed. -/
def os_rmdir (s : Char) (fs : DelFS) (d : Chars) : DelFS :=
  if fs.dirs.contains d && !dirHasEntries s fs d && !fs.dirLocked d then
    { fs with dirs := fs.dirs.filter (fun p => p != d) }
  else fs

/-- deleting_files_and_directories (lines 1040-1071): the per-file delete loop
followed by the bottom-up empty-directory sweep.  sweep is the list of
subdirectories enumerated by os.walk(path, topdown=False) over the scanned
roots, in visit order. -/
def deleting_files_and_directories (s : Char) (fs : DelFS)
    (list_of_files : List Chars) (sweep : List Chars) : DelFS × Bool × List Chars :=
  let r := deleting_files_loop fs list_of_files
  (sweep.foldl (os_rmdir s) r.1, r.2.1, r.2.2)

/-! ## execute_the_selected_option / post_cleanup_actions
(Cleaner.py lines 953-979 and 1108-1115) -/

/-- Which mutating pass execute_the_selected_option actually invoked. -/
inductive Pass where
  | delPass : Pass
  | copyPass : Pass
  | movePass : Pass
  | noPass : Pass
deriving DecidableEq

/-- execute_the_selected_option (lines 953-979).  numPaths is len(paths);
optionChoice is the value returned by selecting_an_option_for_files when
len(paths) is not 1 (the loop there accepts any act with act.strip() among
"1", "2", "3" and returns it unstripped); confirmA / confirmB are the two
confirmation answers.  Returns the Python return value (some true for the
explicit return True, none for the implicit return None) together with the
pass that ran.  The state of the delete pass itself (fs, files, sweep) is
taken as a parameter and its outcome is discarded exactly as in the source,
where the call's result is not inspected. -/
def execute_the_selected_option (numPaths : Nat) (optionChoice : Chars)
    (confirmA confirmB : Chars) (s : Char) (fs : DelFS)
    (list_of_files : List Chars) (sweep : List Chars) : Option Bool × Pass :=
  let number : Option Chars := if numPaths ≠ 1 then some optionChoice else none
  let act : Option Chars :=
    if numPaths = 1 ∨ number = some ['3'] then
      if pyStrip (pyLower confirmA) = ['y', 'e', 's'] then some (pyStrip (pyLower confirmB))
      else some confirmA
    else none
  if act ≠ some ['y', 'e', 's'] ∧ act ≠ none then (none, Pass.noPass)
  else if act = some ['y', 'e', 's'] then
    let _outcome := deleting_files_and_directories s fs list_of_files sweep
    (some true, Pass.delPass)
  else if number = some ['1'] then (none, Pass.copyPass)
  else if number = some ['2'] then (none, Pass.movePass)
  else (none, Pass.noPass)

/-- post_cleanup_actions (lines 1108-1115) runs the reconciliation and history
update iff its boolean argument (the return value of
execute_the_selected_option) is truthy; True is truthy, None is falsy. -/
def post_cleanup_runs_history (boolean : Option Bool) : Bool :=
  match boolean with
  | some b => b
  | none => false

/-! ## Reconciler: get_information_about_deleted_files (lines 1117-1131) -/

/-- get_information_about_deleted_files: re-probe every targeted file; a
successful os.path.getsize classifies it as not deleted and deducts its
current size and one file from the totals; an OSError classifies it as
deleted.  getsize is the probe oracle (none = raises). -/
def get_information_about_deleted_files (getsize : Chars → Option Nat)
    (list_of_files : List Chars) (total_size : Int) :
    List Chars × List Chars × Int × Int :=
  list_of_files.foldl
    (fun acc file =>
      match getsize file with
      | some file_size => (acc.1, acc.2.1 ++ [file], acc.2.2.1 - 1, acc.2.2.2 - file_size)
      | none => (acc.1 ++ [file], acc.2.1, acc.2.2.1, acc.2.2.2))
    ([], [], (list_of_files.length : Int), total_size)

/-! ## Dates (datetime.date semantics used by is_valid_dates and
save_and_display_cleanup_info) -/

def isLeap (y : Int) : Bool := (y % 4 == 0 && y % 100 != 0) || y % 400 == 0

def daysInMonth (y m : Int) : Int :=
  if m == 2 then (if isLeap y then 29 else 28)
  else if m == 4 || m == 6 || m == 9 || m == 11 then 30
  else 31

/-- The (year, month, day) triples accepted by the datetime.date constructor. -/
def validYMD (y m d : Int) : Bool :=
  1 ≤ y && y ≤ 9999 && 1 ≤ m && m ≤ 12 && 1 ≤ d && d ≤ daysInMonth y m

/-- Linearisation of a date triple; for triples with month and day in range
this order coincides with the lexicographic order used by datetime.date. -/
def dateKey : Int × Int × Int → Int
  | (y, m, d) => y * 10000 + m * 100 + d

/-- Python str.split on the single character sep. -/
def splitChar (sep : Char) : Chars → List Chars
  | [] => [[]]
  | c :: rest =>
    if c = sep then [] :: splitChar sep rest
    else
      match splitChar sep rest with
      | [] => [[c]]
      | p :: ps => (c :: p) :: ps

def digitChars (l : Chars) : Bool := !l.isEmpty && l.all (fun c => c.isDigit)

def digitsVal (l : Chars) : Nat := l.foldl (fun a c => a * 10 + (c.toNat - 48)) 0

/-- Model of Python int() on a string: an optional sign followed by digits.
(Python additionally tolerates surrounding whitespace and underscores between
digits; those inputs are outside this model.) -/
def parseIntPy (l : Chars) : Option Int :=
  match l with
  | '-' :: rest => if digitChars rest then some (-(digitsVal rest : Int)) else none
  | '+' :: rest => if digitChars rest then some ((digitsVal rest : Int)) else none
  | _ => if digitChars l then some ((digitsVal l : Int)) else none

/-- year, month, day = map(int, my_date.split('-')); date(year, month, day):
succeeds iff the split has exactly three parts, each parses as an int, and the
triple is a constructible date. -/
def parseDateStr (l : Chars) : Option (Int × Int × Int) :=
  match (splitChar '-' l).map parseIntPy with
  | [some y, some m, some d] => if validYMD y m d then some (y, m, d) else none
  | _ => none

/-! ## JSON values and persisted-state validation
(get_json_content lines 328-337, check_settings lines 339-367,
check_data lines 1182-1197, is_valid_dates lines 1199-1213) -/

/-- JSON values as decoded by json.loads.  (Floating-point numbers are not
modelled; none of the validated fields accepts them.) -/
inductive JVal where
  | jnull : JVal
  | jbool : Bool → JVal
  | jint : Int → JVal
  | jstr : Chars → JVal
  | jarr : List JVal → JVal
  | jobj : List (Chars × JVal) → JVal

/-- get_json_content (lines 328-337): a missing file or a decode error (none)
and a decoded non-dict both collapse to the default configuration; both the
content and the default are returned. -/
def get_json_content (decoded : Option JVal) (default_config : JVal) : JVal × JVal :=
  match decoded with
  | some (.jobj entries) => (.jobj entries, default_config)
  | some _ => (default_config, default_config)
  | none => (default_config, default_config)

/-- len() of a decoded value: number of distinct keys of a dict, length of a
list (json.loads keeps the last value of a duplicated key). -/
def jlen : JVal → Nat
  | .jobj entries => ((entries.map Prod.fst).dedup).length
  | .jarr l => l.length
  | _ => 0

def hasKey (v : JVal) (k : Chars) : Bool :=
  match v with
  | .jobj entries => entries.any (fun e => e.1 == k)
  | _ => false

/-- Dictionary lookup, last binding wins; jnull as the (unreachable after the
key checks) fallback. -/
def jget (v : JVal) (k : Chars) : JVal :=
  match v with
  | .jobj entries => (((entries.reverse).find? (fun e => e.1 == k)).map Prod.snd).getD .jnull
  | _ => .jnull

/-- Python truthiness of the values that can appear here. -/
def pyFalsy : JVal → Bool
  | .jnull => true
  | .jbool b => !b
  | .jint n => n == 0
  | .jstr l => l.isEmpty
  | .jarr l => l.isEmpty
  | .jobj entries => entries.isEmpty

/-- Python == restricted to the comparisons the code performs (scalars against
scalar constants).  Note bool == int compares the numeric values in Python. -/
def pyEq : JVal → JVal → Bool
  | .jint a, .jint b => a == b
  | .jbool a, .jbool b => a == b
  | .jbool a, .jint b => (if a then (1 : Int) else 0) == b
  | .jint a, .jbool b => a == (if b then (1 : Int) else 0)
  | .jstr a, .jstr b => a == b
  | .jnull, .jnull => true
  | _, _ => false

def isBoolJ : JVal → Bool
  | .jbool _ => true
  | _ => false

/-- isinstance(x, int): Python bools are ints. -/
def isIntJ : JVal → Bool
  | .jint _ => true
  | .jbool _ => true
  | _ => false

def isListJ : JVal → Bool
  | .jarr _ => true
  | _ => false

/-- Numeric value of an isinstance-int value. -/
def jToInt : JVal → Int
  | .jint n => n
  | .jbool b => if b then 1 else 0
  | _ => 0

def jAllInt : JVal → Bool
  | .jarr l => l.all isIntJ
  | _ => false

/-- filter_by_size[i] as an integer (only reached behind the list/length/int
guards). -/
def jIdx (v : JVal) (i : Nat) : Int :=
  match v with
  | .jarr l => jToInt (l.getD i .jnull)
  | _ => 0

def kPaths : Chars := "paths".toList
def kSorting : Chars := "sorting".toList
def kOutputFiles : Chars := "output_files".toList
def kOutputExtensions : Chars := "output_extensions".toList
def kFilterBySize : Chars := "filter_by_size".toList
def kIndicatorOutput : Chars := "indicator_output".toList
def kCleanedFilesReport : Chars := "cleaned_files_report".toList

def kFirstDel : Chars := "date_of_first_deletion".toList
def kLastDel : Chars := "date_of_last_deletion".toList
def kNumDel : Chars := "number_of_deletions".toList
def kNumFiles : Chars := "number_of_deleted_files".toList
def kWeight : Chars := "total_weight_of_deleted_files".toList

/-- The default_settings dict built in main (lines 43-45). -/
def default_settings : JVal :=
  .jobj [(kPaths, .jarr []), (kSorting, .jbool false), (kOutputFiles, .jbool false),
         (kOutputExtensions, .jbool false), (kFilterBySize, .jbool false),
         (kIndicatorOutput, .jbool false), (kCleanedFilesReport, .jbool false)]

/-- The default_data dict of save_and_display_cleanup_info (lines 1137-1141). -/
def default_data : JVal :=
  .jobj [(kFirstDel, .jstr "0001-01-01".toList), (kLastDel, .jstr "0001-01-01".toList),
         (kNumDel, .jint 0), (kNumFiles, .jint 0), (kWeight, .jint 0)]

/-- check_settings (lines 339-367), transcribed condition for condition. -/
def check_settings (settings default_settings' : JVal) : JVal :=
  if !(jlen settings == 7) || !hasKey settings kPaths || !hasKey settings kSorting ||
      !hasKey settings kOutputFiles || !hasKey settings kOutputExtensions ||
      !hasKey settings kFilterBySize || !hasKey settings kIndicatorOutput ||
      !hasKey settings kCleanedFilesReport then
    default_settings'
  else if !isListJ (jget settings kPaths) ||
      !(pyEq (jget settings kSorting) (.jbool false) ||
        pyEq (jget settings kSorting) (.jstr "alphabet".toList) ||
        pyEq (jget settings kSorting) (.jstr "size".toList)) ||
      !isBoolJ (jget settings kOutputFiles) || !isBoolJ (jget settings kOutputExtensions) ||
      !isBoolJ (jget settings kIndicatorOutput) || !isBoolJ (jget settings kCleanedFilesReport) then
    default_settings'
  else
    let fbs := jget settings kFilterBySize
    if !(pyFalsy fbs ||
        (isListJ fbs && jlen fbs == 2 && jAllInt fbs &&
         (jIdx fbs 1 > jIdx fbs 0 && jIdx fbs 0 ≥ 0 && jIdx fbs 1 > 0))) then
      default_settings'
    else settings

/-- is_valid_dates (lines 1199-1213): both values must be strings parsing to
constructible dates with first ≤ last ≤ today. -/
def is_valid_dates (today : Int × Int × Int) (d1 d2 : JVal) : Bool :=
  match d1, d2 with
  | .jstr s1, .jstr s2 =>
    match parseDateStr s1, parseDateStr s2 with
    | some a, some b => !(dateKey a > dateKey b || dateKey b > dateKey today)
    | _, _ => false
  | _, _ => false

/-- check_data (lines 1182-1197), transcribed condition for condition. -/
def check_data (today : Int × Int × Int) (data default_data' : JVal) : JVal :=
  if !(jlen data == 5) || !hasKey data kFirstDel || !hasKey data kLastDel ||
      !hasKey data kNumDel || !hasKey data kNumFiles || !hasKey data kWeight then
    default_data'
  else if !is_valid_dates today (jget data kFirstDel) (jget data kLastDel) ||
      !([jget data kNumDel, jget data kNumFiles, jget data kWeight].all
          (fun v => isIntJ v && jToInt v ≥ 0)) then
    default_data'
  else data

/-! ## History record update: save_and_display_cleanup_info (lines 1133-1180)
at the typed level.  The source stores dates as ISO "Y-M-D" strings; here they
are the parsed (year, month, day) triples, the sentinel string "0001-01-01"
being the triple (1, 1, 1), and str(date.today()) being the triple today.
Counters are Python ints. -/

structure HistRec where
  first_deletion : Int × Int × Int
  last_deletion : Int × Int × Int
  number_of_deletions : Int
  number_of_deleted_files : Int
  total_weight : Int
deriving DecidableEq

def default_data_rec : HistRec :=
  { first_deletion := (1, 1, 1), last_deletion := (1, 1, 1),
    number_of_deletions := 0, number_of_deleted_files := 0, total_weight := 0 }

/-- check_data / is_valid_dates (lines 1182-1213) over an already-parsed
record: the same key-range conditions, defaults on failure. -/
def check_data_rec (today : Int × Int × Int) (r : HistRec) : HistRec :=
  if validYMD r.first_deletion.1 r.first_deletion.2.1 r.first_deletion.2.2 &&
      validYMD r.last_deletion.1 r.last_deletion.2.1 r.last_deletion.2.2 &&
      !(dateKey r.first_deletion > dateKey r.last_deletion ||
        dateKey r.last_deletion > dateKey today) &&
      r.number_of_deletions ≥ 0 && r.number_of_deleted_files ≥ 0 && r.total_weight ≥ 0 then
    r
  else default_data_rec

/-- save_and_display_cleanup_info (lines 1133-1180): load and validate the
record, lazily initialise the dates on the sentinel, add the pass to the
counters, display (presentation only, omitted), stamp the last-deletion date,
and persist. -/
def save_and_display_cleanup_info (today : Int × Int × Int) (stored : HistRec)
    (total_files total_size : Int) : HistRec :=
  let data := check_data_rec today stored
  let data := if data.first_deletion = (1, 1, 1) then
      { data with first_deletion := today, last_deletion := today }
    else data
  let data := { data with
    number_of_deletions := data.number_of_deletions + 1,
    number_of_deleted_files := data.number_of_deleted_files + total_files,
    total_weight := data.total_weight + total_size }
  { data with last_deletion := today }

/-! ## Scanner algebra: the scanning loops are folds of a commutative-enough
merge (sum on sizes, concatenation on the two lists). -/

/-- The merge performed in the result loop of get_all_files (lines 845-848). -/
def mcomb (a b : Acc) : Acc := (a.1 + b.1, a.2.1 ++ b.2.1, a.2.2 ++ b.2.2)

/-- Contribution of a single (directory, files) walk entry. -/
def unitAcc (file_formats : Formats) (inversion : Bool) (filter_by_size : Option (Nat × Nat))
    (s : Char) (fs : Chars → Option Nat) (unit : Chars × List Chars) : Acc :=
  unit.2.foldl (fileStep file_formats inversion filter_by_size s fs unit.1) (0, [], [])

/-- The fold step of both scanners over one (directory, files) entry. -/
def scanStep (ff : Formats) (inv : Bool) (fbs : Option (Nat × Nat)) (s : Char)
    (fs : Chars → Option Nat) (acc : Acc) (unit : Chars × List Chars) : Acc :=
  unit.2.foldl (fileStep ff inv fbs s fs unit.1) acc

/-! ### Failure classes of Claim C7 over the decoded persisted state -/

/-- The decode failed (missing file or JSONDecodeError) or produced a
non-dict. -/
def decodeBad (v : Option JVal) : Bool :=
  match v with
  | some (.jobj _) => false
  | some _ => true
  | none => true

/-- The key set differs from the seven required settings keys. -/
def settingsKeysBad (v : JVal) : Bool :=
  !(jlen v == 7 && hasKey v kPaths && hasKey v kSorting && hasKey v kOutputFiles &&
    hasKey v kOutputExtensions && hasKey v kFilterBySize && hasKey v kIndicatorOutput &&
    hasKey v kCleanedFilesReport)

/-- The stored size range is out of range: min ≥ max or a negative bound. -/
def settingsRangeBad (v : JVal) : Bool :=
  match jget v kFilterBySize with
  | .jarr [.jint a, .jint b] => a ≥ b || a < 0 || b < 0
  | _ => false

/-- The key set differs from the five required history keys. -/
def dataKeysBad (v : JVal) : Bool :=
  !(jlen v == 5 && hasKey v kFirstDel && hasKey v kLastDel && hasKey v kNumDel &&
    hasKey v kNumFiles && hasKey v kWeight)

/-- Both dates decode to constructible dates but violate the ordering:
first > last or last > today. -/
def dataDatesBad (today : Int × Int × Int) (v : JVal) : Bool :=
  match jget v kFirstDel, jget v kLastDel with
  | .jstr s1, .jstr s2 =>
    match parseDateStr s1, parseDateStr s2 with
    | some a, some b => dateKey a > dateKey b || dateKey b > dateKey today
    | _, _ => false
  | _, _ => false

/-- Some persisted counter is negative or not an integer. -/
def dataCountersBad (v : JVal) : Bool :=
  [jget v kNumDel, jget v kNumFiles, jget v kWeight].any
    (fun x => !isIntJ x || jToInt x < 0)

theorem mcomb_assoc (a b c : Acc) : mcomb (mcomb a b) c = mcomb a (mcomb b c) := by
  simp [mcomb, Nat.add_assoc, List.append_assoc]

theorem mcomb_zero (a : Acc) : mcomb a (0, [], []) = a := by
  simp [mcomb]

theorem zero_mcomb (a : Acc) : mcomb (0, [], []) a = a := by
  simp [mcomb]

theorem fileStep_mcomb (ff : Formats) (inv : Bool) (fbs : Option (Nat × Nat)) (s : Char)
    (fs : Chars → Option Nat) (root : Chars) (a b : Acc) (f : Chars) :
    fileStep ff inv fbs s fs root (mcomb a b) f = mcomb a (fileStep ff inv fbs s fs root b f) := by
  simp only [fileStep]
  split
  · split
    · split
      · simp [mcomb, Nat.add_assoc, List.append_assoc]
      · rfl
    · rfl
  · rfl

theorem foldl_mcomb {β : Type} (step : Acc → β → Acc)
    (hstep : ∀ a b x, step (mcomb a b) x = mcomb a (step b x)) :
    ∀ (l : List β) (a b : Acc), l.foldl step (mcomb a b) = mcomb a (l.foldl step b)
  | [], _, _ => rfl
  | x :: l, a, b => by
    simp only [List.foldl_cons, hstep]
    exact foldl_mcomb step hstep l a (step b x)

theorem foldl_from_zero {β : Type} (step : Acc → β → Acc)
    (hstep : ∀ a b x, step (mcomb a b) x = mcomb a (step b x)) (l : List β) (a : Acc) :
    l.foldl step a = mcomb a (l.foldl step (0, [], [])) := by
  conv_lhs => rw [← mcomb_zero a]
  exact foldl_mcomb step hstep l a (0, [], [])

theorem scanStep_mcomb (ff : Formats) (inv : Bool) (fbs : Option (Nat × Nat)) (s : Char)
    (fs : Chars → Option Nat) (a b : Acc) (unit : Chars × List Chars) :
    scanStep ff inv fbs s fs (mcomb a b) unit = mcomb a (scanStep ff inv fbs s fs b unit) :=
  foldl_mcomb _ (fun a b f => fileStep_mcomb ff inv fbs s fs unit.1 a b f) unit.2 a b

theorem info_eq_foldl_scanStep (ff : Formats) (inv : Bool) (fbs : Option (Nat × Nat)) (s : Char)
    (fs : Chars → Option Nat) (l : List (Chars × List Chars)) :
    get_information_about_files ff inv fbs s fs l = l.foldl (scanStep ff inv fbs s fs) (0, [], []) :=
  rfl

/-- The scanning fold, component-wise: total size is the sum of the per-entry
sizes, the two lists are the concatenations of the per-entry lists. -/
theorem info_components (ff : Formats) (inv : Bool) (fbs : Option (Nat × Nat)) (s : Char)
    (fs : Chars → Option Nat) (l : List (Chars × List Chars)) :
    get_information_about_files ff inv fbs s fs l =
      ((l.map (fun u => (unitAcc ff inv fbs s fs u).1)).sum,
       (l.map (fun u => (unitAcc ff inv fbs s fs u).2.1)).flatten,
       (l.map (fun u => (unitAcc ff inv fbs s fs u).2.2)).flatten) := by
  induction l with
  | nil => rfl
  | cons u l ih =>
    rw [info_eq_foldl_scanStep] at ih ⊢
    rw [List.foldl_cons,
      foldl_from_zero _ (fun a b x => scanStep_mcomb ff inv fbs s fs a b x), ih]
    have hu : scanStep ff inv fbs s fs (0, [], []) u = unitAcc ff inv fbs s fs u := rfl
    rw [hu]
    simp [mcomb]

theorem info_append (ff : Formats) (inv : Bool) (fbs : Option (Nat × Nat)) (s : Char)
    (fs : Chars → Option Nat) (l₁ l₂ : List (Chars × List Chars)) :
    get_information_about_files ff inv fbs s fs (l₁ ++ l₂) =
      mcomb (get_information_about_files ff inv fbs s fs l₁)
        (get_information_about_files ff inv fbs s fs l₂) := by
  rw [info_eq_foldl_scanStep, info_eq_foldl_scanStep, info_eq_foldl_scanStep,
    List.foldl_append]
  exact foldl_from_zero _ (fun a b x => scanStep_mcomb ff inv fbs s fs a b x) l₂ _

/-- Merging the per-task partial results (lines 842-848) computes the same
value as one sequential fold over the concatenation of all task lists. -/
theorem get_all_files_eq_info_flatten (num_cores : Nat) (walk : List (Chars × List Chars))
    (ff : Formats) (inv : Bool) (fbs : Option (Nat × Nat)) (s : Char)
    (fs : Chars → Option Nat) :
    get_all_files num_cores walk ff inv fbs s fs =
      get_information_about_files ff inv fbs s fs ((partitionWalk num_cores walk).flatten) := by
  show (partitionWalk num_cores walk).foldl _ (0, [], []) = _
  generalize partitionWalk num_cores walk = tasks
  induction tasks with
  | nil => rfl
  | cons t ts ih =>
    have hstep : ∀ (a b : Acc) (task : List (Chars × List Chars)),
        (fun (acc : Acc) task =>
          let r := get_information_about_files ff inv fbs s fs task
          (acc.1 + r.1, acc.2.1 ++ r.2.1, acc.2.2 ++ r.2.2)) (mcomb a b) task =
        mcomb a ((fun (acc : Acc) task =>
          let r := get_information_about_files ff inv fbs s fs task
          (acc.1 + r.1, acc.2.1 ++ r.2.1, acc.2.2 ++ r.2.2)) b task) := by
      intro a b task
      show mcomb (mcomb a b) _ = mcomb a (mcomb b _)
      exact mcomb_assoc a b _
    rw [List.foldl_cons, foldl_from_zero _ hstep, ih, List.flatten_cons, info_append]
    congr 1
    exact zero_mcomb _

/-! ## The round-robin partition loses and duplicates nothing. -/

theorem appendAt_length {α : Type} (tasks : List (List α)) (i : Nat) (x : α) :
    (appendAt tasks i x).length = tasks.length := by
  simp [appendAt]

theorem appendAt_flatten_perm {α : Type} :
    ∀ (tasks : List (List α)) (i : Nat) (x : α), i < tasks.length →
      List.Perm (appendAt tasks i x).flatten (tasks.flatten ++ [x])
  | [], i, x, h => by simp at h
  | t :: ts, 0, x, _ => by
    simp only [appendAt, List.getD_cons_zero, List.set_cons_zero, List.flatten_cons,
      List.append_assoc]
    exact (@List.perm_append_comm _ [x] ts.flatten).append_left t
  | t :: ts, i + 1, x, h => by
    simp only [appendAt, List.getD_cons_succ, List.set_cons_succ, List.flatten_cons,
      List.append_assoc]
    exact ((appendAt_flatten_perm ts i x (Nat.lt_of_succ_lt_succ h)).append_left t)

/-- The partitioning loop of get_all_files, relative to an arbitrary starting
state: the buckets jointly hold the starting contents plus every new entry. -/
theorem partition_aux {α : Type} (w : Nat) (hw : 0 < w) :
    ∀ (l : List α) (tasks : List (List α)) (c : Nat), tasks.length = w →
      List.Perm ((l.foldl (fun acc entry => (appendAt acc.1 (acc.2 % w) entry, acc.2 + 1))
          (tasks, c)).1).flatten (tasks.flatten ++ l)
  | [], tasks, _, _ => by simp
  | x :: l, tasks, c, h => by
    rw [List.foldl_cons]
    have hlen : (appendAt tasks (c % w) x).length = w := by rw [appendAt_length]; exact h
    have hrec := partition_aux w hw l (appendAt tasks (c % w) x) (c + 1) hlen
    refine hrec.trans ?_
    have hb : List.Perm (appendAt tasks (c % w) x).flatten (tasks.flatten ++ [x]) :=
      appendAt_flatten_perm tasks (c % w) x (by rw [h]; exact Nat.mod_lt _ hw)
    have := hb.append_right l
    rw [List.append_assoc, List.singleton_append] at this
    exact this

theorem partition_flatten_perm {α : Type} (w : Nat) (hw : 0 < w) (l : List α) :
    List.Perm (partitionWalk w l).flatten l := by
  have h := partition_aux w hw l (List.replicate w []) 0 (List.length_replicate w [])
  simpa [partitionWalk] using h

theorem partition_length {α : Type} (w : Nat) (l : List α) :
    (partitionWalk w l).length = w := by
  suffices h : ∀ (l : List α) (tasks : List (List α)) (c : Nat),
      ((l.foldl (fun acc entry => (appendAt acc.1 (acc.2 % w) entry, acc.2 + 1))
          (tasks, c)).1).length = tasks.length by
    have := h l (List.replicate w []) 0
    simpa [partitionWalk] using this
  intro l
  induction l with
  | nil => intro tasks c; rfl
  | cons x l ih =>
    intro tasks c
    rw [List.foldl_cons, ih, appendAt_length]

/-! ## Claims about the scanners -/

/-- Claim C1: for every static directory tree, policy (extension set or all,
inversion flag, optional size range) and platform separator, the parallel
scanner (process pool over the round-robin partition) and the sequential
fallback scanner return the same total size, the same multiset of
(file name, file size) pairs and the same multiset of full file paths. -/
theorem parallel_sequential_agree (num_cores : Nat) (hw : 0 < num_cores)
    (walk : List (Chars × List Chars)) (ff : Formats) (inv : Bool)
    (fbs : Option (Nat × Nat)) (s : Char) (fs : Chars → Option Nat) :
    (get_all_files num_cores walk ff inv fbs s fs).1 =
      (get_all_files_windows walk ff inv fbs s fs).1 ∧
    ((get_all_files num_cores walk ff inv fbs s fs).2.1 : Multiset (Chars × Nat)) =
      ((get_all_files_windows walk ff inv fbs s fs).2.1 : Multiset (Chars × Nat)) ∧
    ((get_all_files num_cores walk ff inv fbs s fs).2.2 : Multiset Chars) =
      ((get_all_files_windows walk ff inv fbs s fs).2.2 : Multiset Chars) := by
  have hperm := partition_flatten_perm num_cores hw walk
  have hseq : get_all_files_windows walk ff inv fbs s fs =
      get_information_about_files ff inv fbs s fs walk := rfl
  rw [get_all_files_eq_info_flatten, hseq,
    info_components ff inv fbs s fs ((partitionWalk num_cores walk).flatten),
    info_components ff inv fbs s fs walk]
  exact ⟨(hperm.map _).sum_eq, Multiset.coe_eq_coe.mpr (hperm.map _).flatten,
    Multiset.coe_eq_coe.mpr (hperm.map _).flatten⟩

/-- Witness for C1 at a concrete tree, policy and worker count. -/
theorem parallel_sequential_agree_witness :
    0 < 2 ∧
    ((get_all_files 2 [("r".toList, ["a.txt".toList, "b.log".toList]),
        ("r/s".toList, ["c.txt".toList])] (Formats.exts ["txt".toList]) false none '/'
        (fun p => if p = "r/a.txt".toList then some 10 else
          if p = "r/b.log".toList then some 20 else
          if p = "r/s/c.txt".toList then some 7 else none)).1 =
      (get_all_files_windows [("r".toList, ["a.txt".toList, "b.log".toList]),
        ("r/s".toList, ["c.txt".toList])] (Formats.exts ["txt".toList]) false none '/'
        (fun p => if p = "r/a.txt".toList then some 10 else
          if p = "r/b.log".toList then some 20 else
          if p = "r/s/c.txt".toList then some 7 else none)).1 ∧
    ((get_all_files 2 [("r".toList, ["a.txt".toList, "b.log".toList]),
        ("r/s".toList, ["c.txt".toList])] (Formats.exts ["txt".toList]) false none '/'
        (fun p => if p = "r/a.txt".toList then some 10 else
          if p = "r/b.log".toList then some 20 else
          if p = "r/s/c.txt".toList then some 7 else none)).2.1 : Multiset (Chars × Nat)) =
      ((get_all_files_windows [("r".toList, ["a.txt".toList, "b.log".toList]),
        ("r/s".toList, ["c.txt".toList])] (Formats.exts ["txt".toList]) false none '/'
        (fun p => if p = "r/a.txt".toList then some 10 else
          if p = "r/b.log".toList then some 20 else
          if p = "r/s/c.txt".toList then some 7 else none)).2.1 : Multiset (Chars × Nat)) ∧
    ((get_all_files 2 [("r".toList, ["a.txt".toList, "b.log".toList]),
        ("r/s".toList, ["c.txt".toList])] (Formats.exts ["txt".toList]) false none '/'
        (fun p => if p = "r/a.txt".toList then some 10 else
          if p = "r/b.log".toList then some 20 else
          if p = "r/s/c.txt".toList then some 7 else none)).2.2 : Multiset Chars) =
      ((get_all_files_windows [("r".toList, ["a.txt".toList, "b.log".toList]),
        ("r/s".toList, ["c.txt".toList])] (Formats.exts ["txt".toList]) false none '/'
        (fun p => if p = "r/a.txt".toList then some 10 else
          if p = "r/b.log".toList then some 20 else
          if p = "r/s/c.txt".toList then some 7 else none)).2.2 : Multiset Chars)) :=
  ⟨by decide, parallel_sequential_agree 2 (by decide) _ _ _ _ _ _⟩

/-- Claim C5: for every walk output and worker count W at least 1, the
round-robin assignment with a single incrementing counter yields W work-unit
lists whose (directory, file) pairs are exactly the pairs of the
unpartitioned walk, with no duplicates and no omissions (equality of the
multisets of pairs). -/
theorem partition_property (w : Nat) (hw : 0 < w) (walk : List (Chars × List Chars)) :
    (partitionWalk w walk).length = w ∧
    (walkPairs ((partitionWalk w walk).flatten) : Multiset (Chars × Chars)) =
      (walkPairs walk : Multiset (Chars × Chars)) := by
  refine ⟨partition_length w walk, ?_⟩
  have hperm := partition_flatten_perm w hw walk
  exact Multiset.coe_eq_coe.mpr (hperm.map _).flatten

/-- Witness for C5 at a concrete walk and worker count. -/
theorem partition_property_witness :
    0 < 3 ∧
    ((partitionWalk 3 [("r".toList, ["a".toList]), ("r/s".toList, ["b".toList, "c".toList]),
        ("r/t".toList, []), ("r/u".toList, ["d".toList])]).length = 3 ∧
    (walkPairs ((partitionWalk 3 [("r".toList, ["a".toList]),
        ("r/s".toList, ["b".toList, "c".toList]), ("r/t".toList, []),
        ("r/u".toList, ["d".toList])]).flatten) : Multiset (Chars × Chars)) =
      (walkPairs [("r".toList, ["a".toList]), ("r/s".toList, ["b".toList, "c".toList]),
        ("r/t".toList, []), ("r/u".toList, ["d".toList])] : Multiset (Chars × Chars))) :=
  ⟨by decide, partition_property 3 (by decide) _⟩

/-! ## Claims about the filter predicate -/

/-- Claim C2 counterexample: the claim asserts that a file without an
extension passes a non-all policy when inversion is on; on the code the
filter returns False for such a file before inversion is consulted. -/
theorem extensionless_inversion_counterexample :
    get_file_by_format "README".toList (Formats.exts ["txt".toList]) true = false := by
  decide

/-- Claim C2 (amended): for every file whose final path segment has no valid
extension (no dot followed by 1 to 10 non-dot, non-separator characters at
the end) and every non-all policy, the filter predicate excludes the file
regardless of the inversion flag: the no-extension branch returns False
before inversion is applied. -/
theorem extensionless_always_excluded (file : Chars) (fmts : List Chars) (inversion : Bool)
    (hnone : extractExtension file = none) :
    get_file_by_format file (Formats.exts fmts) inversion = false := by
  simp [get_file_by_format, hnone]

/-- Witness for the amended C2 at a concrete extensionless file. -/
theorem extensionless_always_excluded_witness :
    extractExtension "Makefile".toList = none ∧
    get_file_by_format "Makefile".toList (Formats.exts ["txt".toList]) true = false ∧
    get_file_by_format "Makefile".toList (Formats.exts ["txt".toList]) false = false :=
  ⟨by decide, extensionless_always_excluded _ _ true (by decide),
    extensionless_always_excluded _ _ false (by decide)⟩

/-- Claim C9: for every active size range (min, max) with min < max and every
file size, the size test passes iff min ≤ size ≤ max, both boundaries pass,
and a file failing the extension test or the size test contributes nothing to
the scan accumulator. -/
theorem size_range_filter (lo hi sz : Nat) (hlt : lo < hi) (ff : Formats) (inv : Bool)
    (s : Char) (fs : Chars → Option Nat) (root f : Chars) (acc : Acc) :
    (sizeOk (some (lo, hi)) sz = true ↔ (lo ≤ sz ∧ sz ≤ hi)) ∧
    sizeOk (some (lo, hi)) lo = true ∧
    sizeOk (some (lo, hi)) hi = true ∧
    (get_file_by_format (joinPath s root f) ff inv = false →
      fileStep ff inv (some (lo, hi)) s fs root acc f = acc) ∧
    (∀ n, fs (joinPath s root f) = some n → sizeOk (some (lo, hi)) n = false →
      fileStep ff inv (some (lo, hi)) s fs root acc f = acc) := by
  refine ⟨?_, ?_, ?_, ?_, ?_⟩
  · simp [sizeOk]
  · simp [sizeOk, Nat.le_of_lt hlt]
  · simp [sizeOk, Nat.le_of_lt hlt]
  · intro hf
    simp [fileStep, hf]
  · intro n hn hsz
    simp only [fileStep, hn, hsz]
    split <;> rfl

/-- Witness for C9 at a concrete range, size and scan state. -/
theorem size_range_filter_witness :
    1 < 3 ∧
    ((sizeOk (some (1, 3)) 2 = true ↔ (1 ≤ 2 ∧ 2 ≤ 3)) ∧
    sizeOk (some (1, 3)) 1 = true ∧
    sizeOk (some (1, 3)) 3 = true ∧
    (get_file_by_format (joinPath '/' "r".toList "a".toList) (Formats.exts ["txt".toList])
        false = false →
      fileStep (Formats.exts ["txt".toList]) false (some (1, 3)) '/' (fun _ => some 9)
        "r".toList (0, [], []) "a".toList = (0, [], [])) ∧
    (∀ n, (fun (_ : Chars) => some 9) (joinPath '/' "r".toList "a".toList) = some n →
      sizeOk (some (1, 3)) n = false →
      fileStep (Formats.exts ["txt".toList]) false (some (1, 3)) '/' (fun _ => some 9)
        "r".toList (0, [], []) "a".toList = (0, [], []))) :=
  ⟨by decide, size_range_filter 1 3 2 (by decide) _ _ _ _ _ _ _⟩

/-! ## Claim C10: case-sensitive matching against a lowercased policy -/

theorem toNat_charOfNat_of_lt {n : Nat} (h : n < 55296) : (Char.ofNat n).toNat = n := by
  rw [Char.ofNat, dif_pos (Or.inl h)]
  rfl

/-- Lowercasing never produces a basic latin capital, so a capital letter is
never the image of charLower. -/
theorem charLower_ne_of_upper (d c : Char) (h65 : 65 ≤ c.toNat) (h90 : c.toNat ≤ 90) :
    charLower d ≠ c := by
  intro he
  simp only [charLower, Char.toLower] at he
  by_cases hd : Char.toNat d ≥ 65 ∧ Char.toNat d ≤ 90
  · rw [if_pos hd] at he
    have hv : (Char.ofNat (d.toNat + 32)).toNat = d.toNat + 32 :=
      toNat_charOfNat_of_lt (by omega)
    rw [he] at hv
    omega
  · rw [if_neg hd] at he
    exact hd (he ▸ ⟨h65, h90⟩)

theorem ne_upper_of_mem_pyLower {x : Char} {l : Chars} (hx : x ∈ pyLower l)
    {c : Char} (h65 : 65 ≤ c.toNat) (h90 : c.toNat ≤ 90) : x ≠ c := by
  rcases List.mem_map.mp hx with ⟨y, _, rfl⟩
  exact charLower_ne_of_upper y c h65 h90

theorem mem_of_mem_pyStrip {x : Char} {l : Chars} (h : x ∈ pyStrip l) : x ∈ l := by
  unfold pyStrip at h
  rw [List.mem_reverse] at h
  have h1 := (List.dropWhile_sublist isSpaceChar).subset h
  rw [List.mem_reverse] at h1
  exact (List.dropWhile_sublist isSpaceChar).subset h1

/-- Every character of every piece of a split comes from the input (or the
accumulator). -/
theorem splitCommaSpace_chars : ∀ (l cur piece : Chars), piece ∈ splitCommaSpace l cur →
    ∀ x ∈ piece, x ∈ l ∨ x ∈ cur := by
  intro l cur
  induction l, cur using splitCommaSpace.induct with
  | case1 rest cur ih =>
    intro piece hp x hx
    rw [splitCommaSpace] at hp
    rcases List.mem_cons.mp hp with h | h
    · subst h
      right; exact List.mem_reverse.mp hx
    · rcases ih piece h x hx with h2 | h2
      · left; simp [h2]
      · simp at h2
  | case2 c rest cur hne ih =>
    intro piece hp x hx
    rw [splitCommaSpace.eq_2 _ _ _ hne] at hp
    rcases ih piece hp x hx with h2 | h2
    · left; exact List.mem_cons_of_mem c h2
    · rcases List.mem_cons.mp h2 with h3 | h3
      · left; rw [h3]; exact List.mem_cons_self c rest
      · right; exact h3
  | case3 cur =>
    intro piece hp x hx
    rw [splitCommaSpace] at hp
    have : piece = cur.reverse := List.mem_singleton.mp hp
    subst this
    right; exact List.mem_reverse.mp hx

/-- The extension list produced by input_file_format contains no basic latin
capital (the raw line is lowercased before it is split). -/
theorem input_file_format_entries_lower (raw act : Chars) (fmts : List Chars)
    (hf : (input_file_format raw act).1 = Formats.exts fmts)
    {e : Chars} (he : e ∈ fmts) {x : Char} (hx : x ∈ e)
    {c : Char} (h65 : 65 ≤ c.toNat) (h90 : c.toNat ≤ 90) : x ≠ c := by
  simp only [input_file_format] at hf
  by_cases hall : pyStrip (pyLower raw) = ['a', 'l', 'l']
  · rw [if_pos hall] at hf
    exact absurd hf (by simp)
  · rw [if_neg hall] at hf
    have hsp : splitCommaSpace (pyStrip (pyLower raw)) [] = fmts := by
      simpa using hf
    rw [← hsp] at he
    rcases splitCommaSpace_chars _ _ e he x hx with h | h
    · exact ne_upper_of_mem_pyLower (mem_of_mem_pyStrip h) h65 h90
    · simp at h

/-- Claim C10: extension matching is case-sensitive while the policy list is
lowercased on entry: a file whose extension contains a basic latin capital
never matches a policy built by input_file_format, so it is excluded when
inversion is off and passed when inversion is on, even if the policy lists
the same extension in lower case. -/
theorem uppercase_extension_case_sensitive (file raw act : Chars) (ext : Chars) (c : Char)
    (hext : extractExtension file = some ext) (hc : c ∈ ext)
    (h65 : 65 ≤ c.toNat) (h90 : c.toNat ≤ 90)
    (hnall : (input_file_format raw act).1 ≠ Formats.all) :
    get_file_by_format file (input_file_format raw act).1 false = false ∧
    get_file_by_format file (input_file_format raw act).1 true = true := by
  obtain ⟨fmts, hf⟩ : ∃ fmts, (input_file_format raw act).1 = Formats.exts fmts := by
    cases h : (input_file_format raw act).1 with
    | all => exact absurd h hnall
    | exts l => exact ⟨l, rfl⟩
  have hnm : ext ∉ fmts := fun hmem =>
    input_file_format_entries_lower raw act fmts hf hmem hc h65 h90 rfl
  rw [hf]
  constructor <;> simp [get_file_by_format, hext, hnm]

/-- Witness for C10: the file A.TXT against the policy entered as txt. -/
theorem uppercase_extension_case_sensitive_witness :
    extractExtension "A.TXT".toList = some "TXT".toList ∧
    'T' ∈ "TXT".toList ∧ 65 ≤ 'T'.toNat ∧ 'T'.toNat ≤ 90 ∧
    (input_file_format "txt".toList ['1']).1 ≠ Formats.all ∧
    get_file_by_format "A.TXT".toList (input_file_format "txt".toList ['1']).1 false = false ∧
    get_file_by_format "A.TXT".toList (input_file_format "txt".toList ['1']).1 true = true :=
  ⟨by decide, by decide, by decide, by decide, by decide,
    (uppercase_extension_case_sensitive "A.TXT".toList "txt".toList ['1'] "TXT".toList 'T'
      (by decide) (by decide) (by decide) (by decide) (by decide)).1,
    (uppercase_extension_case_sensitive "A.TXT".toList "txt".toList ['1'] "TXT".toList 'T'
      (by decide) (by decide) (by decide) (by decide) (by decide)).2⟩

/-! ## Claim C4: the history update runs exactly after a confirmed delete -/

/-- Claim C4: execute_the_selected_option returns a truthy value iff a
confirmed delete pass ran (regardless of per-file failures, whose outcome it
discards), and post_cleanup_actions performs the reconciliation and history
update iff that value is truthy; in particular the update never runs after a
copy or move pass. -/
theorem history_update_iff_delete (numPaths : Nat) (optionChoice confirmA confirmB : Chars)
    (s : Char) (fs : DelFS) (files sweep : List Chars) :
    (post_cleanup_runs_history
        (execute_the_selected_option numPaths optionChoice confirmA confirmB
          s fs files sweep).1 = true ↔
      (execute_the_selected_option numPaths optionChoice confirmA confirmB
          s fs files sweep).2 = Pass.delPass) ∧
    ((execute_the_selected_option numPaths optionChoice confirmA confirmB
          s fs files sweep).2 = Pass.copyPass ∨
      (execute_the_selected_option numPaths optionChoice confirmA confirmB
          s fs files sweep).2 = Pass.movePass →
      post_cleanup_runs_history
        (execute_the_selected_option numPaths optionChoice confirmA confirmB
          s fs files sweep).1 = false) := by
  simp only [execute_the_selected_option, post_cleanup_runs_history]
  split_ifs <;> simp_all

/-! ## Claim C3: reconciler accounting -/

theorem filter_length_split {α : Type} (p : α → Bool) (l : List α) :
    (l.filter p).length + (l.filter (fun x => !p x)).length = l.length := by
  induction l with
  | nil => rfl
  | cons x l ih => by_cases h : p x <;> simp [List.filter_cons, h] <;> omega

theorem filter_sum_split {α : Type} (p : α → Bool) (g : α → Int) (l : List α) :
    ((l.filter p).map g).sum + ((l.filter (fun x => !p x)).map g).sum = (l.map g).sum := by
  induction l with
  | nil => rfl
  | cons x l ih => by_cases h : p x <;> simp [List.filter_cons, h] <;> omega

/-- The probing loop of get_information_about_deleted_files relative to an
arbitrary starting state. -/
theorem reconciler_fold (getsize : Chars → Option Nat) :
    ∀ (files : List Chars) (d0 nd0 : List Chars) (tf0 ts0 : Int),
      files.foldl
        (fun acc file =>
          match getsize file with
          | some file_size => (acc.1, acc.2.1 ++ [file], acc.2.2.1 - 1, acc.2.2.2 - file_size)
          | none => (acc.1 ++ [file], acc.2.1, acc.2.2.1, acc.2.2.2))
        (d0, nd0, tf0, ts0) =
      (d0 ++ files.filter (fun f => (getsize f).isNone),
       nd0 ++ files.filter (fun f => (getsize f).isSome),
       tf0 - (((files.filter (fun f => (getsize f).isSome)).length : Int)),
       ts0 - ((files.filter (fun f => (getsize f).isSome)).map
           (fun f => (((getsize f).getD 0 : Nat) : Int))).sum)
  | [], d0, nd0, tf0, ts0 => by simp
  | f :: files, d0, nd0, tf0, ts0 => by
    rw [List.foldl_cons]
    cases h : getsize f with
    | some n =>
      simp only [h]
      rw [reconciler_fold getsize files d0 (nd0 ++ [f]) (tf0 - 1) (ts0 - n)]
      simp [List.filter_cons, h, List.append_assoc]
      constructor
      · omega
      · omega
    | none =>
      simp only [h]
      rw [reconciler_fold getsize files (d0 ++ [f]) nd0 tf0 ts0]
      simp [List.filter_cons, h, List.append_assoc]

/-- Claim C3: the reconciliation step classifies a path as deleted iff its
size probe fails, and, when the scanned total is the sum of the scanned sizes
and still-present files report their scanned size, the adjusted totals are
the number of deleted files and the sum of the deleted files' sizes. -/
theorem reconciler_accounting (getsize : Chars → Option Nat) (files : List Chars)
    (scanSize : Chars → Nat)
    (hsz : ∀ f ∈ files, ∀ n, getsize f = some n → n = scanSize f) :
    (get_information_about_deleted_files getsize files
        ((files.map (fun f => (scanSize f : Int))).sum)).1 =
      files.filter (fun f => (getsize f).isNone) ∧
    (get_information_about_deleted_files getsize files
        ((files.map (fun f => (scanSize f : Int))).sum)).2.1 =
      files.filter (fun f => (getsize f).isSome) ∧
    (get_information_about_deleted_files getsize files
        ((files.map (fun f => (scanSize f : Int))).sum)).2.2.1 =
      (((files.filter (fun f => (getsize f).isNone)).length : Int)) ∧
    (get_information_about_deleted_files getsize files
        ((files.map (fun f => (scanSize f : Int))).sum)).2.2.2 =
      ((files.filter (fun f => (getsize f).isNone)).map (fun f => (scanSize f : Int))).sum := by
  unfold get_information_about_deleted_files
  rw [reconciler_fold getsize files [] [] (files.length : Int)
    ((files.map (fun f => (scanSize f : Int))).sum)]
  have hIsSome : files.filter (fun f => (getsize f).isSome) =
      files.filter (fun f => !(getsize f).isNone) :=
    List.filter_congr (fun f _ => by cases getsize f <;> rfl)
  have hlen := filter_length_split (fun f => (getsize f).isNone) files
  have hsum := filter_sum_split (fun f => (getsize f).isNone)
    (fun f => (scanSize f : Int)) files
  have hmap : ((files.filter (fun f => (getsize f).isSome)).map
      (fun f => (((getsize f).getD 0 : Nat) : Int))).sum =
      ((files.filter (fun f => (getsize f).isSome)).map (fun f => (scanSize f : Int))).sum := by
    refine congrArg List.sum (List.map_congr_left ?_)
    intro f hf
    rcases List.mem_filter.mp hf with ⟨hmem, hsome⟩
    rcases Option.isSome_iff_exists.mp hsome with ⟨n, hn⟩
    rw [hn]
    simp [hsz f hmem n hn]
  refine ⟨by simp, by simp, ?_, ?_⟩
  · simp only []
    rw [hIsSome]
    omega
  · simp only []
    rw [hmap, hIsSome]
    omega

/-- Witness for C3: two targeted files, both gone at probe time. -/
theorem reconciler_accounting_witness :
    (∀ f ∈ ["a".toList, "b".toList], ∀ n, (fun (_ : Chars) => (none : Option Nat)) f = some n →
      n = (fun (_ : Chars) => 3) f) ∧
    (get_information_about_deleted_files (fun _ => none) ["a".toList, "b".toList]
        ((["a".toList, "b".toList].map (fun f => (((fun (_ : Chars) => 3) f : Nat) : Int))).sum)).1 =
      ["a".toList, "b".toList].filter (fun f => ((fun (_ : Chars) => (none : Option Nat)) f).isNone) ∧
    (get_information_about_deleted_files (fun _ => none) ["a".toList, "b".toList]
        ((["a".toList, "b".toList].map (fun f => (((fun (_ : Chars) => 3) f : Nat) : Int))).sum)).2.2.1 =
      ((["a".toList, "b".toList].filter
          (fun f => ((fun (_ : Chars) => (none : Option Nat)) f).isNone)).length : Int) :=
  ⟨fun _ _ _ h => Option.noConfusion h,
    (reconciler_accounting (fun _ => none) ["a".toList, "b".toList] (fun _ => 3)
      (fun _ _ _ h => Option.noConfusion h)).1,
    (reconciler_accounting (fun _ => none) ["a".toList, "b".toList] (fun _ => 3)
      (fun _ _ _ h => Option.noConfusion h)).2.2.1⟩

/-! ## Claim C6: history record invariants across updates -/

/-- The record written by save_and_display_cleanup_info, field by field. -/
theorem save_and_display_fields (today : Int × Int × Int) (stored : HistRec)
    (total_files total_size : Int) :
    save_and_display_cleanup_info today stored total_files total_size =
      { first_deletion := if (check_data_rec today stored).first_deletion = (1, 1, 1) then today
          else (check_data_rec today stored).first_deletion,
        last_deletion := today,
        number_of_deletions := (check_data_rec today stored).number_of_deletions + 1,
        number_of_deleted_files :=
          (check_data_rec today stored).number_of_deleted_files + total_files,
        total_weight := (check_data_rec today stored).total_weight + total_size } := by
  simp only [save_and_display_cleanup_info]
  by_cases h : (check_data_rec today stored).first_deletion = (1, 1, 1)
  · rw [if_pos h, if_pos h]
  · rw [if_neg h, if_neg h]

/-- Claim C6: every history update performed by the reconciler writes a record
with firstDeletionDate ≤ lastDeletionDate ≤ today, and, relative to the
validated record it loaded, never decreases the three counters (the deltas
being the current pass's non-negative file count and size). -/
theorem history_record_invariants (stored : HistRec) (today : Int × Int × Int)
    (total_files total_size : Int) (hf : 0 ≤ total_files) (hs : 0 ≤ total_size) :
    dateKey (save_and_display_cleanup_info today stored total_files total_size).first_deletion ≤
      dateKey (save_and_display_cleanup_info today stored total_files total_size).last_deletion ∧
    dateKey (save_and_display_cleanup_info today stored total_files total_size).last_deletion ≤
      dateKey today ∧
    (check_data_rec today stored).number_of_deletions ≤
      (save_and_display_cleanup_info today stored total_files total_size).number_of_deletions ∧
    (check_data_rec today stored).number_of_deleted_files ≤
      (save_and_display_cleanup_info today stored total_files
        total_size).number_of_deleted_files ∧
    (check_data_rec today stored).total_weight ≤
      (save_and_display_cleanup_info today stored total_files total_size).total_weight := by
  have hr0 : (dateKey (check_data_rec today stored).first_deletion ≤
        dateKey (check_data_rec today stored).last_deletion ∧
      dateKey (check_data_rec today stored).last_deletion ≤ dateKey today) ∨
      check_data_rec today stored = default_data_rec := by
    unfold check_data_rec
    split
    · rename_i hcond
      left
      simp only [Bool.and_eq_true, Bool.not_eq_true', Bool.or_eq_false_iff,
        decide_eq_false_iff_not, decide_eq_true_eq] at hcond
      omega
    · right; rfl
  rw [save_and_display_fields]
  dsimp only
  refine ⟨?_, le_refl _, by omega, by omega, by omega⟩
  by_cases h : (check_data_rec today stored).first_deletion = (1, 1, 1)
  · rw [if_pos h]
  · rw [if_neg h]
    rcases hr0 with ⟨h1, h2⟩ | hdef
    · exact le_trans h1 h2
    · rw [hdef] at h
      exact absurd rfl h

/-- Witness for C6 on the lazily initialised record. -/
theorem history_record_invariants_witness :
    (0 ≤ (2 : Int)) ∧ (0 ≤ (30 : Int)) ∧
    (dateKey (save_and_display_cleanup_info (2026, 10, 12) default_data_rec 2 30).first_deletion ≤
      dateKey (save_and_display_cleanup_info (2026, 10, 12) default_data_rec 2 30).last_deletion ∧
    dateKey (save_and_display_cleanup_info (2026, 10, 12) default_data_rec 2 30).last_deletion ≤
      dateKey (2026, 10, 12) ∧
    (check_data_rec (2026, 10, 12) default_data_rec).number_of_deletions ≤
      (save_and_display_cleanup_info (2026, 10, 12) default_data_rec 2 30).number_of_deletions ∧
    (check_data_rec (2026, 10, 12) default_data_rec).number_of_deleted_files ≤
      (save_and_display_cleanup_info (2026, 10, 12) default_data_rec 2
        30).number_of_deleted_files ∧
    (check_data_rec (2026, 10, 12) default_data_rec).total_weight ≤
      (save_and_display_cleanup_info (2026, 10, 12) default_data_rec 2 30).total_weight) :=
  ⟨by decide, by decide,
    history_record_invariants default_data_rec (2026, 10, 12) 2 30 (by decide) (by decide)⟩

/-! ## Claim C8: executor partial failure -/

theorem contains_eq_true_of_mem {l : List Chars} {a : Chars} (h : a ∈ l) :
    l.contains a = true := by
  simpa using h

theorem contains_eq_false_of_not_mem {l : List Chars} {a : Chars} (h : a ∉ l) :
    l.contains a = false := by
  by_contra hc
  rw [Bool.not_eq_false] at hc
  exact h (by simpa using hc)

theorem contains_filter_ne (l : List Chars) (f g : Chars) (h : g ≠ f) :
    (l.filter (fun p => p != f)).contains g = l.contains g := by
  induction l with
  | nil => rfl
  | cons x l ih =>
    rw [List.filter_cons]
    by_cases hx : x = f
    · subst hx
      rw [if_neg (by simp), List.contains_cons, ih]
      have hg : (g == x) = false := by simp [h]
      rw [hg, Bool.false_or]
    · rw [if_pos (by simp [hx]), List.contains_cons, List.contains_cons, ih]

theorem all_congr_mem {α : Type} {l : List α} {p q : α → Bool} (h : ∀ a ∈ l, p a = q a) :
    l.all p = l.all q := by
  induction l with
  | nil => rfl
  | cons x l ih =>
    rw [List.all_cons, List.all_cons, h x (List.mem_cons_self x l),
      ih (fun a ha => h a (List.mem_cons_of_mem x ha))]

/-- The per-file delete loop relative to an arbitrary starting state: every
file is attempted, exactly the present-and-unlocked targets disappear from
the filesystem, the failures are recorded in order, and any failure clears
the success flag while the loop continues. -/
theorem deleting_loop_spec :
    ∀ (files : List Chars) (fs0 : DelFS) (flag0 : Bool) (failed0 : List Chars),
      files.Nodup →
      files.foldl delStep (fs0, flag0, failed0) =
      ({ fs0 with files := fs0.files.filter (fun p =>
          !(files.contains p && !fs0.fileLocked p)) },
       flag0 && files.all (fun f => fs0.files.contains f && !fs0.fileLocked f),
       failed0 ++ files.filter (fun f => !(fs0.files.contains f && !fs0.fileLocked f)))
  | [], fs0, flag0, failed0, _ => by
    rw [List.foldl_nil]
    refine congrArg₂ Prod.mk ?_ (congrArg₂ Prod.mk (by rw [List.all_nil, Bool.and_true])
      (by rw [List.filter_nil, List.append_nil]))
    have hpred : fs0.files.filter
        (fun p => !(([] : List Chars).contains p && !fs0.fileLocked p)) = fs0.files :=
      List.filter_eq_self.mpr (fun a _ => rfl)
    rw [hpred]
  | f :: files, fs0, flag0, failed0, hnd => by
    have hf : f ∉ files := (List.nodup_cons.mp hnd).1
    have hnd' : files.Nodup := (List.nodup_cons.mp hnd).2
    rw [List.foldl_cons]
    by_cases hmem : f ∈ fs0.files
    · by_cases hlk : fs0.fileLocked f = true
      · -- present but locked: PermissionError, state unchanged, failure recorded
        have hstep : delStep (fs0, flag0, failed0) f = (fs0, false, failed0 ++ [f]) := by
          unfold delStep os_remove
          dsimp only
          rw [contains_eq_true_of_mem hmem, hlk]
          rfl
        rw [hstep, deleting_loop_spec files fs0 false (failed0 ++ [f]) hnd']
        refine congrArg₂ Prod.mk ?_ (congrArg₂ Prod.mk ?_ ?_)
        · congr 1
          refine List.filter_congr ?_
          intro p _
          by_cases hpf : p = f
          · subst hpf
            rw [List.contains_cons, contains_eq_false_of_not_mem hf, hlk]
            simp
          · rw [List.contains_cons]
            have : (p == f) = false := by simp [hpf]
            rw [this, Bool.false_or]
        · rw [List.all_cons, contains_eq_true_of_mem hmem, hlk]
          simp
        · rw [List.filter_cons, contains_eq_true_of_mem hmem, hlk]
          rw [if_pos (by simp), List.append_assoc, List.singleton_append]
      · -- present and removable: the file is removed, the loop goes on
        rw [Bool.not_eq_true] at hlk
        have hstep : delStep (fs0, flag0, failed0) f =
            ({ fs0 with files := fs0.files.filter (fun p => p != f) }, flag0, failed0) := by
          unfold delStep os_remove
          dsimp only
          rw [contains_eq_true_of_mem hmem, hlk]
          rfl
        rw [hstep, deleting_loop_spec files _ flag0 failed0 hnd']
        dsimp only
        refine congrArg₂ Prod.mk ?_ (congrArg₂ Prod.mk ?_ ?_)
        · congr 1
          rw [List.filter_filter]
          refine List.filter_congr ?_
          intro p _
          by_cases hpf : p = f
          · subst hpf
            rw [List.contains_cons, hlk]
            simp
          · rw [List.contains_cons]
            have h1 : (p == f) = false := by simp [hpf]
            have h2 : (p != f) = true := by simp [hpf]
            rw [h1, h2, Bool.false_or, Bool.and_true]
        · rw [List.all_cons, contains_eq_true_of_mem hmem, hlk]
          simp only [Bool.not_false, Bool.true_and, Bool.and_true]
          congr 1
          refine all_congr_mem ?_
          intro g hg
          have hgf : g ≠ f := fun he => hf (he ▸ hg)
          rw [contains_filter_ne _ _ _ hgf]
        · rw [List.filter_cons, contains_eq_true_of_mem hmem, hlk]
          rw [if_neg (by simp)]
          congr 1
          refine List.filter_congr ?_
          intro g hg
          have hgf : g ≠ f := fun he => hf (he ▸ hg)
          rw [contains_filter_ne _ _ _ hgf]
    · -- absent: FileNotFoundError, state unchanged, failure recorded
      have hstep : delStep (fs0, flag0, failed0) f = (fs0, false, failed0 ++ [f]) := by
        unfold delStep os_remove
        dsimp only
        rw [contains_eq_false_of_not_mem hmem]
        rfl
      rw [hstep, deleting_loop_spec files fs0 false (failed0 ++ [f]) hnd']
      refine congrArg₂ Prod.mk ?_ (congrArg₂ Prod.mk ?_ ?_)
      · congr 1
        refine List.filter_congr ?_
        intro p hp
        have hpf : p ≠ f := fun he => hmem (he ▸ hp)
        rw [List.contains_cons]
        have : (p == f) = false := by simp [hpf]
        rw [this, Bool.false_or]
      · rw [List.all_cons, contains_eq_false_of_not_mem hmem]
        simp
      · rw [List.filter_cons, contains_eq_false_of_not_mem hmem]
        rw [if_pos (by simp), List.append_assoc, List.singleton_append]

/-- The empty-directory sweep never touches files. -/
theorem sweep_files_eq (s : Char) :
    ∀ (sweep : List Chars) (fs : DelFS), (sweep.foldl (os_rmdir s) fs).files = fs.files
  | [], _ => rfl
  | e :: sweep, fs => by
    rw [List.foldl_cons, sweep_files_eq s sweep (os_rmdir s fs e)]
    unfold os_rmdir
    split <;> rfl

/-- A directory that still holds a present file survives the whole sweep:
its own rmdir call fails on a non-empty directory, and no other call touches
it. -/
theorem sweep_keeps_dirs_with_file (s : Char) :
    ∀ (sweep : List Chars) (fs : DelFS) (d p : Chars),
      p ∈ fs.files → underDir s d p = true → d ∈ fs.dirs →
      d ∈ (sweep.foldl (os_rmdir s) fs).dirs
  | [], _, _, _, _, _, hd => hd
  | e :: sweep, fs, d, p, hp, hu, hd => by
    rw [List.foldl_cons]
    refine sweep_keeps_dirs_with_file s sweep (os_rmdir s fs e) d p ?_ hu ?_
    · unfold os_rmdir
      split <;> exact hp
    · unfold os_rmdir
      split
      · rename_i hcond
        dsimp only
        rw [List.mem_filter]
        refine ⟨hd, ?_⟩
        by_cases hde : d = e
        · exfalso
          subst hde
          have hent : dirHasEntries s fs d = true := by
            unfold dirHasEntries
            rw [Bool.or_eq_true]
            left
            rw [List.any_eq_true]
            exact ⟨p, hp, hu⟩
          simp [hent] at hcond
        · simp [hde]
      · exact hd

/-- Claim C8: with k of the n targeted files present and unlocked and the
other n-k inaccessible, the delete pass attempts every file (a per-file
failure never aborts the batch: every removable target is removed), records
exactly the n-k failures so that k + |failedPaths| = n, reports overall
success iff nothing failed, and the post-delete cleanup sweep never removes
a directory left non-empty by the failures. -/
theorem executor_partial_failure (s : Char) (fs : DelFS) (files sweep : List Chars)
    (hnd : files.Nodup) :
    (deleting_files_and_directories s fs files sweep).1.files =
      fs.files.filter (fun p => !(files.contains p && !fs.fileLocked p)) ∧
    (deleting_files_and_directories s fs files sweep).2.2 =
      files.filter (fun f => !(fs.files.contains f && !fs.fileLocked f)) ∧
    (files.filter (fun f => fs.files.contains f && !fs.fileLocked f)).length +
      (deleting_files_and_directories s fs files sweep).2.2.length = files.length ∧
    ((deleting_files_and_directories s fs files sweep).2.1 = true ↔
      (deleting_files_and_directories s fs files sweep).2.2 = []) ∧
    (∀ d p, d ∈ fs.dirs → p ∈ (deleting_files_and_directories s fs files sweep).1.files →
      underDir s d p = true → d ∈ (deleting_files_and_directories s fs files sweep).1.dirs) := by
  have hloop := deleting_loop_spec files fs true [] hnd
  unfold deleting_files_and_directories deleting_files_loop
  rw [hloop]
  dsimp only
  rw [List.nil_append, Bool.true_and]
  refine ⟨?_, rfl, ?_, ?_, ?_⟩
  · rw [sweep_files_eq]
  · exact filter_length_split _ files
  · constructor
    · intro h
      rw [List.filter_eq_nil_iff]
      intro a ha hcon
      rw [List.all_eq_true] at h
      rw [h a ha] at hcon
      simp at hcon
    · intro h
      rw [List.all_eq_true]
      intro a ha
      rw [List.filter_eq_nil_iff] at h
      have := h a ha
      rw [Bool.not_eq_true] at this
      simpa using this
  · intro d pp hd hp hu
    rw [sweep_files_eq] at hp
    exact sweep_keeps_dirs_with_file s sweep _ d pp hp hu hd

/-- Witness for C8: one removable file, one missing file, one directory kept
alive by an unrelated present file. -/
theorem executor_partial_failure_witness :
    ([['a'], ['b']] : List Chars).Nodup ∧
    ((deleting_files_and_directories '/'
        (DelFS.mk [['a'], ['d', '/', 'x']] [['d']] (fun _ => false) (fun _ => false))
        [['a'], ['b']] [['d']]).1.files =
      ([['a'], ['d', '/', 'x']] : List Chars).filter (fun p =>
        !(([['a'], ['b']] : List Chars).contains p && !(fun _ => false) p)) ∧
    (deleting_files_and_directories '/'
        (DelFS.mk [['a'], ['d', '/', 'x']] [['d']] (fun _ => false) (fun _ => false))
        [['a'], ['b']] [['d']]).2.2 =
      ([['a'], ['b']] : List Chars).filter (fun f =>
        !(([['a'], ['d', '/', 'x']] : List Chars).contains f && !(fun _ => false) f)) ∧
    (([['a'], ['b']] : List Chars).filter (fun f =>
        ([['a'], ['d', '/', 'x']] : List Chars).contains f && !(fun _ => false) f)).length +
      (deleting_files_and_directories '/'
        (DelFS.mk [['a'], ['d', '/', 'x']] [['d']] (fun _ => false) (fun _ => false))
        [['a'], ['b']] [['d']]).2.2.length = ([['a'], ['b']] : List Chars).length ∧
    ((deleting_files_and_directories '/'
        (DelFS.mk [['a'], ['d', '/', 'x']] [['d']] (fun _ => false) (fun _ => false))
        [['a'], ['b']] [['d']]).2.1 = true ↔
      (deleting_files_and_directories '/'
        (DelFS.mk [['a'], ['d', '/', 'x']] [['d']] (fun _ => false) (fun _ => false))
        [['a'], ['b']] [['d']]).2.2 = []) ∧
    (∀ d p, d ∈ (DelFS.mk [['a'], ['d', '/', 'x']] [['d']] (fun _ => false)
        (fun _ => false)).dirs →
      p ∈ (deleting_files_and_directories '/'
        (DelFS.mk [['a'], ['d', '/', 'x']] [['d']] (fun _ => false) (fun _ => false))
        [['a'], ['b']] [['d']]).1.files →
      underDir '/' d p = true →
      d ∈ (deleting_files_and_directories '/'
        (DelFS.mk [['a'], ['d', '/', 'x']] [['d']] (fun _ => false) (fun _ => false))
        [['a'], ['b']] [['d']]).1.dirs)) :=
  ⟨by decide, executor_partial_failure '/'
    (DelFS.mk [['a'], ['d', '/', 'x']] [['d']] (fun _ => false) (fun _ => false))
    [['a'], ['b']] [['d']] (by decide)⟩

/-! ## Claim C7: malformed persisted state falls back to the defaults -/

theorem get_json_content_of_decodeBad {v : Option JVal} (h : decodeBad v = true) (d : JVal) :
    get_json_content v d = (d, d) := by
  rcases v with _ | w
  · rfl
  · cases w with
    | jobj entries => exact Bool.noConfusion h
    | jnull => rfl
    | jbool b => rfl
    | jint n => rfl
    | jstr l => rfl
    | jarr l => rfl

theorem check_settings_default :
    check_settings default_settings default_settings = default_settings := by rfl

theorem check_data_default (today : Int × Int × Int) :
    check_data today default_data default_data = default_data := by
  unfold check_data
  split
  · rfl
  · split <;> rfl

theorem get_json_content_snd (v : Option JVal) (d : JVal) : (get_json_content v d).2 = d := by
  rcases v with _ | w
  · rfl
  · cases w <;> rfl

theorem check_settings_of_keysBad (v d : JVal) (h : settingsKeysBad v = true) :
    check_settings v d = d := by
  unfold check_settings
  split
  · rfl
  · rename_i h1
    exfalso
    rw [Bool.not_eq_true] at h1
    simp only [Bool.or_eq_false_iff, Bool.not_eq_false'] at h1
    obtain ⟨⟨⟨⟨⟨⟨⟨ha, hb⟩, hc⟩, hd'⟩, he⟩, hf⟩, hg⟩, hh⟩ := h1
    unfold settingsKeysBad at h
    rw [ha, hb, hc, hd', he, hf, hg, hh] at h
    exact absurd h (by decide)

theorem check_settings_of_rangeBad (v d : JVal) (h : settingsRangeBad v = true) :
    check_settings v d = d := by
  unfold check_settings
  dsimp only
  split
  · rfl
  split
  · rfl
  split
  · rfl
  rename_i h3
  exfalso
  rw [Bool.not_eq_true, Bool.not_eq_false'] at h3
  unfold settingsRangeBad at h
  split at h
  · rename_i a b heq
    rw [heq] at h3
    simp only [Bool.or_eq_true, Bool.and_eq_true, decide_eq_true_eq] at h
    simp [pyFalsy, isListJ, jlen, jAllInt, isIntJ, jIdx, jToInt] at h3
    omega
  · exact Bool.noConfusion h

theorem check_data_of_keysBad (today : Int × Int × Int) (v d : JVal)
    (h : dataKeysBad v = true) : check_data today v d = d := by
  unfold check_data
  split
  · rfl
  · rename_i h1
    exfalso
    rw [Bool.not_eq_true] at h1
    simp only [Bool.or_eq_false_iff, Bool.not_eq_false'] at h1
    obtain ⟨⟨⟨⟨⟨ha, hb⟩, hc⟩, hd'⟩, he⟩, hf⟩ := h1
    unfold dataKeysBad at h
    rw [ha, hb, hc, hd', he, hf] at h
    exact absurd h (by decide)

theorem check_data_of_datesBad (today : Int × Int × Int) (v d : JVal)
    (h : dataDatesBad today v = true) : check_data today v d = d := by
  unfold check_data
  split
  · rfl
  split
  · rfl
  rename_i h2
  exfalso
  rw [Bool.not_eq_true] at h2
  simp only [Bool.or_eq_false_iff, Bool.not_eq_false'] at h2
  rcases h2 with ⟨hvd, _⟩
  unfold dataDatesBad at h
  unfold is_valid_dates at hvd
  split at h
  · rename_i s1 s2 heq1 heq2
    rw [heq1, heq2] at hvd
    dsimp only at hvd
    split at h
    · rename_i a b hp1 hp2
      rw [hp1, hp2] at hvd
      dsimp only at hvd
      rw [h] at hvd
      exact Bool.noConfusion hvd
    · exact Bool.noConfusion h
  · exact Bool.noConfusion h

theorem check_data_of_countersBad (today : Int × Int × Int) (v d : JVal)
    (h : dataCountersBad v = true) : check_data today v d = d := by
  unfold check_data
  split
  · rfl
  split
  · rfl
  rename_i h2
  exfalso
  rw [Bool.not_eq_true] at h2
  simp only [Bool.or_eq_false_iff, Bool.not_eq_false'] at h2
  rcases h2 with ⟨_, hall⟩
  unfold dataCountersBad at h
  simp only [List.all_cons, List.all_nil, Bool.and_true, Bool.and_eq_true,
    decide_eq_true_eq] at hall
  simp only [List.any_cons, List.any_nil, Bool.or_false, Bool.or_eq_true,
    Bool.not_eq_true', decide_eq_true_eq] at h
  rcases hall with ⟨⟨ha1, ha2⟩, ⟨hb1, hb2⟩, hc1, hc2⟩
  rcases h with (h | h) | (h | h) | (h | h)
  · rw [h] at ha1; exact Bool.noConfusion ha1
  · omega
  · rw [h] at hb1; exact Bool.noConfusion hb1
  · omega
  · rw [h] at hc1; exact Bool.noConfusion hc1
  · omega

/-- Claim C7: a persisted settings or history input whose decode fails, is
not a dict, has a different key set than required, or holds an out-of-range
value (size range with min ≥ max or a negative bound, dates with
first > last or last > today, a negative or non-integer counter) is replaced
by the default configuration; the validation itself is total, so no error
reaches the caller. -/
theorem invalid_persisted_state_defaults (sIn dIn : Option JVal) (today : Int × Int × Int)
    (hs : (decodeBad sIn ||
        settingsKeysBad (get_json_content sIn default_settings).1 ||
        settingsRangeBad (get_json_content sIn default_settings).1) = true)
    (hd : (decodeBad dIn ||
        dataKeysBad (get_json_content dIn default_data).1 ||
        dataDatesBad today (get_json_content dIn default_data).1 ||
        dataCountersBad (get_json_content dIn default_data).1) = true) :
    check_settings (get_json_content sIn default_settings).1
      (get_json_content sIn default_settings).2 = default_settings ∧
    check_data today (get_json_content dIn default_data).1
      (get_json_content dIn default_data).2 = default_data := by
  constructor
  · simp only [Bool.or_eq_true] at hs
    rcases hs with (h | h) | h
    · rw [get_json_content_of_decodeBad h]
      exact check_settings_default
    · exact (check_settings_of_keysBad _ _ h).trans (get_json_content_snd sIn default_settings)
    · exact (check_settings_of_rangeBad _ _ h).trans (get_json_content_snd sIn default_settings)
  · simp only [Bool.or_eq_true] at hd
    rcases hd with ((h | h) | h) | h
    · rw [get_json_content_of_decodeBad h]
      exact check_data_default today
    · exact (check_data_of_keysBad today _ _ h).trans (get_json_content_snd dIn default_data)
    · exact (check_data_of_datesBad today _ _ h).trans (get_json_content_snd dIn default_data)
    · exact (check_data_of_countersBad today _ _ h).trans (get_json_content_snd dIn default_data)

/-- Witness for C7: an empty settings dict and a history dict whose dates
are reversed. -/
theorem invalid_persisted_state_defaults_witness :
    ((decodeBad (some (JVal.jobj [])) ||
        settingsKeysBad (get_json_content (some (JVal.jobj [])) default_settings).1 ||
        settingsRangeBad (get_json_content (some (JVal.jobj [])) default_settings).1) = true) ∧
    ((decodeBad (some (JVal.jobj [(kFirstDel, JVal.jstr "2024-05-02".toList),
          (kLastDel, JVal.jstr "2023-01-01".toList), (kNumDel, JVal.jint 1),
          (kNumFiles, JVal.jint 2), (kWeight, JVal.jint 3)])) ||
        dataKeysBad (get_json_content (some (JVal.jobj [(kFirstDel, JVal.jstr "2024-05-02".toList),
          (kLastDel, JVal.jstr "2023-01-01".toList), (kNumDel, JVal.jint 1),
          (kNumFiles, JVal.jint 2), (kWeight, JVal.jint 3)])) default_data).1 ||
        dataDatesBad (2026, 10, 12)
          (get_json_content (some (JVal.jobj [(kFirstDel, JVal.jstr "2024-05-02".toList),
          (kLastDel, JVal.jstr "2023-01-01".toList), (kNumDel, JVal.jint 1),
          (kNumFiles, JVal.jint 2), (kWeight, JVal.jint 3)])) default_data).1 ||
        dataCountersBad (get_json_content (some (JVal.jobj [(kFirstDel, JVal.jstr "2024-05-02".toList),
          (kLastDel, JVal.jstr "2023-01-01".toList), (kNumDel, JVal.jint 1),
          (kNumFiles, JVal.jint 2), (kWeight, JVal.jint 3)])) default_data).1) = true) ∧
    check_settings (get_json_content (some (JVal.jobj [])) default_settings).1
      (get_json_content (some (JVal.jobj [])) default_settings).2 = default_settings ∧
    check_data (2026, 10, 12)
      (get_json_content (some (JVal.jobj [(kFirstDel, JVal.jstr "2024-05-02".toList),
        (kLastDel, JVal.jstr "2023-01-01".toList), (kNumDel, JVal.jint 1),
        (kNumFiles, JVal.jint 2), (kWeight, JVal.jint 3)])) default_data).1
      (get_json_content (some (JVal.jobj [(kFirstDel, JVal.jstr "2024-05-02".toList),
        (kLastDel, JVal.jstr "2023-01-01".toList), (kNumDel, JVal.jint 1),
        (kNumFiles, JVal.jint 2), (kWeight, JVal.jint 3)])) default_data).2 = default_data :=
  ⟨by rfl, by rfl,
    (invalid_persisted_state_defaults (some (JVal.jobj []))
      (some (JVal.jobj [(kFirstDel, JVal.jstr "2024-05-02".toList),
        (kLastDel, JVal.jstr "2023-01-01".toList), (kNumDel, JVal.jint 1),
        (kNumFiles, JVal.jint 2), (kWeight, JVal.jint 3)])) (2026, 10, 12)
      (by rfl) (by rfl)).1,
    (invalid_persisted_state_defaults (some (JVal.jobj []))
      (some (JVal.jobj [(kFirstDel, JVal.jstr "2024-05-02".toList),
        (kLastDel, JVal.jstr "2023-01-01".toList), (kNumDel, JVal.jint 1),
        (kNumFiles, JVal.jint 2), (kWeight, JVal.jint 3)])) (2026, 10, 12)
      (by rfl) (by rfl)).2⟩

end Cleaner
